import Mathlib

/-!
# Verification of the afiliados ETL pipeline (`data_create.py`)

Shallow embedding of the core of `data_create.py` from the SocialSecES
repository: filename date extraction, schema normalization (column renames),
row sanitization, numeric sanitization, the AFILIADOS metric rule, and the
three grouped-mean aggregations.

Modelling conventions:
* A pandas missing value (NaN) is `Option.none`; present values are `some _`.
* Raw spreadsheet cells are `Cell` (missing, text, or numeric).
* `pd.to_numeric(..., errors := coerce)` composed with `astype(str)` is
  modelled cell-wise: a numeric cell round-trips to itself, a text cell goes
  through a decimal-literal parser, a missing cell stays missing.
* Grouped means follow pandas `groupby(...).mean()`: missing values are
  ignored inside a group, an all-missing group has a missing mean, and rows
  whose group key is itself missing are dropped.  The order in which groups
  are listed (pandas sorts by key) is irrelevant to every property proved
  here, which are all stated via membership.
* Exceptions are `Option`/`Except`: a raised-and-caught per-file exception is
  `none` from `processFile`; a fatal `raise` is `Except.error`.
-/

namespace SocialSecES

/-- A raw spreadsheet cell: missing (NaN), text, or numeric. -/
inductive Cell where
  | na : Cell
  | txt : String → Cell
  | num : ℚ → Cell
deriving DecidableEq

/-- One data row of a source file after header normalization, before the
(year, month) columns are injected: the two label columns and the seven
numeric columns of the canonical schema. -/
structure DataRow where
  provincia : Option String
  municipio : Option String
  general : Cell
  agrario : Cell
  mar : Cell
  hogar : Cell
  autonomos : Cell
  carbon : Cell
  total : Cell
deriving DecidableEq

/-- A combined-table row: a `DataRow` with its injected (year, month). -/
structure CombinedRow where
  provincia : Option String
  municipio : Option String
  year : Nat
  month : Nat
  general : Cell
  agrario : Cell
  mar : Cell
  hogar : Cell
  autonomos : Cell
  carbon : Cell
  total : Cell
deriving DecidableEq

/-- A combined-table row after `clean_numeric_columns`: the seven numeric
columns are either a number or missing. -/
structure CleanRow where
  provincia : Option String
  municipio : Option String
  year : Nat
  month : Nat
  general : Option ℚ
  agrario : Option ℚ
  mar : Option ℚ
  hogar : Option ℚ
  autonomos : Option ℚ
  carbon : Option ℚ
  total : Option ℚ
deriving DecidableEq

/-- A row of the table produced by `determine_afiliados`:
(PROVINCIA, MUNICIPIO, year, month, AFILIADOS). -/
structure MetricRecord where
  provincia : Option String
  municipio : Option String
  year : Nat
  month : Nat
  afiliados : Option ℚ
deriving DecidableEq

/-! ## Filename dater (`get_date_from_filename`)

The source uses `re.search("AfiliadosMuni-(\d\d)-(\d\d\d\d)", filename)`:
try the pattern at every position from the left, return the first match.
-/

/-- Numeric value of a digit character. -/
def digitVal (c : Char) : Nat := c.toNat - 48

/-- The fixed literal part of the filename pattern. -/
def headerChars : List Char :=
  ['A', 'f', 'i', 'l', 'i', 'a', 'd', 'o', 's', 'M', 'u', 'n', 'i', '-']

/-- Consume an expected literal character sequence from the front of the
input, returning the rest on success. -/
def eatLiteral : List Char → List Char → Option (List Char)
  | [], cs => some cs
  | _ :: _, [] => none
  | p :: ps, c :: cs => if c = p then eatLiteral ps cs else none

/-- Month value of its two digit characters. -/
def monthVal (m1 m2 : Char) : Nat := 10 * digitVal m1 + digitVal m2

/-- Year value of its four digit characters. -/
def yearVal (y1 y2 y3 y4 : Char) : Nat :=
  1000 * digitVal y1 + 100 * digitVal y2 + 10 * digitVal y3 + digitVal y4

/-- After the literal `AfiliadosMuni-`, the regex requires two digits, a
hyphen and four digits; anything may follow.  The parameter `p` is a filter
on the month value; the source regex imposes none (`anyMonth` below), the
spec's reading of the pattern imposes the 01..12 range. -/
def matchTail (p : Nat → Bool) : List Char → Option (Nat × Nat)
  | m1 :: m2 :: d :: y1 :: y2 :: y3 :: y4 :: _ =>
      if m1.isDigit && m2.isDigit && d = '-' && y1.isDigit && y2.isDigit &&
          y3.isDigit && y4.isDigit && p (monthVal m1 m2) then
        some (yearVal y1 y2 y3 y4, monthVal m1 m2)
      else none
  | _ => none

/-- Try the whole regex at the current position. -/
def matchAtP (p : Nat → Bool) (cs : List Char) : Option (Nat × Nat) :=
  match eatLiteral headerChars cs with
  | none => none
  | some rest => matchTail p rest

/-- `re.search`: try the pattern at each position, leftmost match wins. -/
def findDateP (p : Nat → Bool) : List Char → Option (Nat × Nat)
  | [] => none
  | c :: cs =>
      match matchAtP p (c :: cs) with
      | some r => some r
      | none => findDateP p cs

/-- No month filter: what the source regex actually checks. -/
def anyMonth : Nat → Bool := fun _ => true

/-- The 01..12 month filter the specification describes. -/
def monthInRange : Nat → Bool := fun m => decide (1 ≤ m ∧ m ≤ 12)

/-- `get_date_from_filename`: returns `(year, month)` from the first
occurrence of the pattern, `none` models the raised `ValueError`. -/
def get_date_from_filename (filename : String) : Option (Nat × Nat) :=
  findDateP anyMonth filename.data

/-- The full pattern instance with the given digit characters. -/
def patChars (m1 m2 y1 y2 y3 y4 : Char) : List Char :=
  headerChars ++ [m1, m2, '-', y1, y2, y3, y4]

/-- All six pattern positions hold digit characters. -/
def digitsOk (m1 m2 y1 y2 y3 y4 : Char) : Prop :=
  m1.isDigit = true ∧ m2.isDigit = true ∧ y1.isDigit = true ∧
    y2.isDigit = true ∧ y3.isDigit = true ∧ y4.isDigit = true

/-- The pattern (with month filter `p`) occurs somewhere in the character
list, with month value `m` and year value `y`. -/
def occursPL (p : Nat → Bool) (cs : List Char) (y m : Nat) : Prop :=
  ∃ m1 m2 y1 y2 y3 y4 pre suf,
    digitsOk m1 m2 y1 y2 y3 y4 ∧ p (monthVal m1 m2) = true ∧
    cs = pre ++ patChars m1 m2 y1 y2 y3 y4 ++ suf ∧
    m = monthVal m1 m2 ∧ y = yearVal y1 y2 y3 y4

/-- The source pattern `AfiliadosMuni-DD-DDDD` (any two-digit month) occurs
in the filename with the given year and month. -/
def patternOccurs (s : String) (y m : Nat) : Prop :=
  occursPL anyMonth s.data y m

/-- The spec's pattern, with the month restricted to 01..12, occurs in the
filename with the given year and month. -/
def monthPatternOccurs (s : String) (y m : Nat) : Prop :=
  occursPL monthInRange s.data y m

/-- Some in-range pattern occurrence exists in the filename. -/
def hasMonthPattern (s : String) : Prop :=
  ∃ y m, monthPatternOccurs s y m

/-! ## Schema normalizer (`column_renames` / `DataFrame.rename`) -/

/-- The historical header variants and their canonical names, in source
order.  Python dict keys are unique, so lookup by first match is exact. -/
def column_renames : List (String × String) :=
  [("Reg. General(1)", "GENERAL"),
   ("TRAB.", "TRAB"),
   ("R. G.- S.E.Agrario", "AGRARIO"),
   ("R.E.MAR", "MAR"),
   ("HOGAR (2)", "HOGAR"),
   ("R.E.Autónomos", "AUTONOMOS"),
   ("R.E. Carbón", "CARBON"),
   ("R. G.- S.E.Hogar(2)", "HOGAR"),
   ("R. E. MAR", "MAR"),
   ("R. E. T. Autónomos", "AUTONOMOS"),
   ("R. E. M. Carbón", "CARBON"),
   ("R. G.- S.E.Hogar", "HOGAR"),
   ("R. E. MAR ", "MAR")]

/-- Rename one column label: mapped labels get their canonical name, all
others pass through unchanged. -/
def renameLabel (n : String) : String :=
  match column_renames.find? (fun v => v.1 == n) with
  | some v => v.2
  | none => n

/-- `DataFrame.rename(columns := column_renames)`: each column label is
relabelled independently; columns are never merged, dropped or reordered,
so two labels may collide onto the same canonical name. -/
def rename_columns (cols : List (String × List Cell)) : List (String × List Cell) :=
  cols.map (fun c => (renameLabel c.1, c.2))

/-- The canonical column vocabulary of the combined table. -/
def canonical_columns : List String :=
  ["PROVINCIA", "MUNICIPIO", "GENERAL", "TRAB", "AGRARIO", "MAR", "HOGAR",
   "AUTONOMOS", "CARBON", "TOTAL", "year", "month"]

/-! ## Row sanitizer (the three row filters of `load_and_combine_data`) -/

/-- `str.startswith`, on the character lists of the two strings. -/
def strStarts (s pre : String) : Bool := pre.data.isPrefixOf s.data

/-- pandas `astype(str)` on a possibly-missing string: NaN prints as the
text nan. -/
def astypeStr (o : Option String) : String :=
  match o with
  | some s => s
  | none => "nan"

/-- `dropna(how := all)` condition: every field of the row is missing. -/
def rowAllNa (r : DataRow) : Bool :=
  r.provincia.isNone && r.municipio.isNone && decide (r.general = Cell.na) &&
    decide (r.agrario = Cell.na) && decide (r.mar = Cell.na) &&
    decide (r.hogar = Cell.na) && decide (r.autonomos = Cell.na) &&
    decide (r.carbon = Cell.na) && decide (r.total = Cell.na)

/-- The three row filters of `load_and_combine_data`, in source order:
drop all-missing rows, drop rows whose PROVINCIA text starts with an
opening parenthesis, drop rows whose MUNICIPIO text starts with
SIN DISTRIBUCIÓN. -/
def sanitize_rows (rows : List DataRow) : List DataRow :=
  ((rows.filter (fun r => !rowAllNa r)).filter
      (fun r => !strStarts (astypeStr r.provincia) "(")).filter
    (fun r => !strStarts (astypeStr r.municipio) "SIN DISTRIBUCIÓN")

/-! ## Numeric sanitizer (`clean_numeric_columns`) -/

/-- Accumulating decimal value of a digit list. -/
def digitsToNat : List Char → Nat → Nat
  | [], acc => acc
  | c :: cs, acc => digitsToNat cs (10 * acc + digitVal c)

/-- Parse an unsigned decimal literal: digits, optionally followed by a
decimal point and digits, at least one digit in total. -/
def parseDecimalCore (cs : List Char) : Option ℚ :=
  let ip := cs.takeWhile Char.isDigit
  let rest := cs.dropWhile Char.isDigit
  match rest with
  | [] => if ip.isEmpty then none else some ((digitsToNat ip 0 : ℚ))
  | c :: fp =>
      if c = '.' && fp.all Char.isDigit && (!ip.isEmpty || !fp.isEmpty) then
        some ((digitsToNat ip 0 : ℚ) + (digitsToNat fp 0 : ℚ) / ((10 : ℚ) ^ fp.length))
      else none

/-- `pd.to_numeric(..., errors := coerce)` on a text cell: an optionally
signed decimal literal parses to its value, everything else coerces to
missing. -/
def to_numeric_str (s : String) : Option ℚ :=
  match s.data with
  | [] => none
  | c :: rest =>
      if c = '-' then (parseDecimalCore rest).map (fun q => -q)
      else if c = '+' then parseDecimalCore rest
      else parseDecimalCore (c :: rest)

/-- One cell of a numeric column through `clean_numeric_columns`: coerce to
text, replace an exact `<5` by NaN, then numeric coercion.  A numeric cell
round-trips through its text form to itself; a missing cell prints as nan
and coerces back to missing.  The function is total: no input raises. -/
def clean_cell : Cell → Option ℚ
  | Cell.na => none
  | Cell.num q => some q
  | Cell.txt s => if s = "<5" then none else to_numeric_str s

/-- `clean_numeric_columns` on one combined row: the seven numeric columns
are sanitized cell-wise, the label and date columns are untouched. -/
def clean_numeric_row (r : CombinedRow) : CleanRow :=
  { provincia := r.provincia, municipio := r.municipio,
    year := r.year, month := r.month,
    general := clean_cell r.general, agrario := clean_cell r.agrario,
    mar := clean_cell r.mar, hogar := clean_cell r.hogar,
    autonomos := clean_cell r.autonomos, carbon := clean_cell r.carbon,
    total := clean_cell r.total }

/-- `clean_numeric_columns` on the combined table. -/
def clean_numeric_columns (rows : List CombinedRow) : List CleanRow :=
  rows.map clean_numeric_row

/-! ## Metric deriver (`determine_afiliados`) -/

/-- pandas `+` on two possibly-missing numbers: missing propagates. -/
def nanAdd (a b : Option ℚ) : Option ℚ :=
  match a, b with
  | some x, some y => some (x + y)
  | _, _ => none

/-- The `np.where` row rule of `determine_afiliados`: before 2012, or when
HOGAR is missing, AFILIADOS is GENERAL; otherwise GENERAL + HOGAR. -/
def determine_afiliados_row (r : CleanRow) : MetricRecord :=
  { provincia := r.provincia, municipio := r.municipio,
    year := r.year, month := r.month,
    afiliados :=
      if r.year < 2012 ∨ r.hogar = none then r.general
      else nanAdd r.general r.hogar }

/-- `determine_afiliados` on the cleaned table. -/
def determine_afiliados (rows : List CleanRow) : List MetricRecord :=
  rows.map determine_afiliados_row

/-! ## Aggregators -/

/-- pandas `mean()` over one group: ignore missing values; an all-missing
group has a missing mean. -/
def pandasMean (vs : List (Option ℚ)) : Option ℚ :=
  let ps := vs.filterMap id
  if ps.isEmpty then none else some (ps.sum / (ps.length : ℚ))

/-- pandas `groupby(keyf)[val].mean()`: one output row per distinct key,
whose value is the mean over the rows with that key. -/
def groupbyMean {α κ : Type} [DecidableEq κ] (keyf : α → κ)
    (valf : α → Option ℚ) (l : List α) : List (κ × Option ℚ) :=
  ((l.map keyf).dedup).map
    (fun k => (k, pandasMean ((l.filter (fun a => decide (keyf a = k))).map valf)))

/-- First whitespace-separated token of a string (`name.split()[0]`);
`none` models the raised IndexError on a token-free string. -/
def firstToken (s : String) : Option String :=
  let tok := (s.data.dropWhile Char.isWhitespace).takeWhile (fun c => !c.isWhitespace)
  if tok.isEmpty then none else some (String.mk tok)

/-- Digits-only natural number parse of a full token. -/
def parseNatDigits (cs : List Char) : Option Nat :=
  if !cs.isEmpty && cs.all Char.isDigit then some (digitsToNat cs 0) else none

/-- Python `int(token)`: optional sign then digits, the whole token;
`none` models the raised ValueError. -/
def parsePyInt (s : String) : Option Int :=
  match s.data with
  | [] => none
  | c :: rest =>
      if c = '-' then (parseNatDigits rest).map (fun n => -(n : Int))
      else if c = '+' then (parseNatDigits rest).map (fun n => (n : Int))
      else (parseNatDigits (c :: rest)).map (fun n => (n : Int))

/-- `int(name.split()[0])`: the municipality code of one label. -/
def muniCodeOfLabel (s : String) : Option Int :=
  (firstToken s).bind parsePyInt

/-- The municipality code of one metric row, when its label is present. -/
def rowCode (r : MetricRecord) : Option Int :=
  r.municipio.bind muniCodeOfLabel

/-- Parse every label, failing if any fails (the uncaught exception of
`extract_municipality_codes`). -/
def parseAllCodes : List String → Option (List Int)
  | [] => some []
  | s :: rest =>
      match muniCodeOfLabel s, parseAllCodes rest with
      | some c, some cs => some (c :: cs)
      | _, _ => none

/-- `extract_municipality_codes`: drop missing labels and the literal
distribution placeholder, then parse the leading token of each. -/
def extract_municipality_codes (labels : List (Option String)) : Option (List Int) :=
  parseAllCodes
    ((labels.filterMap id).filter (fun s => !decide (s = "SIN DISTRIBUCIÓN (*)")))

/-- The row restriction of `create_municipality_averages`: MUNICIPIO
present and not the PROVINCIAL placeholder. -/
def muniSelected (rows : List MetricRecord) : List MetricRecord :=
  (rows.filter (fun r => r.municipio.isSome)).filter
    (fun r => !decide (r.municipio = some "PROVINCIAL"))

/-- `create_municipality_averages`: restrict rows, extract the codes,
assign them as a column (a length mismatch raises, hence `none`), then a
grouped mean by (code, year). -/
def create_municipality_averages (rows : List MetricRecord) :
    Option (List ((Int × Nat) × Option ℚ)) :=
  match extract_municipality_codes ((muniSelected rows).map (fun r => r.municipio)) with
  | none => none
  | some codes =>
      if codes.length = (muniSelected rows).length then
        some (groupbyMean (fun cr => (cr.1, cr.2.year))
          (fun cr => cr.2.afiliados) (codes.zip (muniSelected rows)))
      else none

/-- The row restriction of `create_national_averages`: PROVINCIA equals
NACIONAL (a missing PROVINCIA never equals it). -/
def nacSelected (rows : List MetricRecord) : List MetricRecord :=
  rows.filter (fun r => decide (r.provincia = some "NACIONAL"))

/-- `create_national_averages`: grouped mean by year over the NACIONAL
rows, then the PROVINCIA label is re-attached to every output row. -/
def create_national_averages (rows : List MetricRecord) :
    List (Nat × Option ℚ × String) :=
  (groupbyMean (fun r => r.year) (fun r => r.afiliados) (nacSelected rows)).map
    (fun kv => (kv.1, kv.2, "NACIONAL"))

/-- The row restriction of `create_provincial_averages`: MUNICIPIO equals
the PROVINCIAL placeholder. -/
def provSelected (rows : List MetricRecord) : List MetricRecord :=
  rows.filter (fun r => decide (r.municipio = some "PROVINCIAL"))

/-- `create_provincial_averages`: grouped mean by (PROVINCIA, year) over
the PROVINCIAL rows.  pandas `groupby` silently drops rows whose group key
is missing, modelled by the `filterMap` pairing. -/
def create_provincial_averages (rows : List MetricRecord) :
    List ((String × Nat) × Option ℚ) :=
  groupbyMean (fun pr => (pr.1, pr.2.year)) (fun pr => pr.2.afiliados)
    ((provSelected rows).filterMap (fun r => r.provincia.map (fun p => (p, r))))

/-! ## Dataset combiner and the run (`load_and_combine_data` / `main`) -/

/-- One input file: its name and its (already header-normalized) rows. -/
structure InputFile where
  name : String
  rows : List DataRow
deriving DecidableEq

/-- Inject the (year, month) derived from the filename into a row. -/
def addDate (y m : Nat) (r : DataRow) : CombinedRow :=
  { provincia := r.provincia, municipio := r.municipio, year := y, month := m,
    general := r.general, agrario := r.agrario, mar := r.mar,
    hogar := r.hogar, autonomos := r.autonomos, carbon := r.carbon,
    total := r.total }

/-- The per-file body of `load_and_combine_data`: sanitize the rows, parse
the filename date, inject it.  Any exception is caught and the file is
skipped (`none`); in the model the date parse is the failure point. -/
def processFile (f : InputFile) : Option (List CombinedRow) :=
  let data := sanitize_rows f.rows
  match get_date_from_filename f.name with
  | none => none
  | some ym => some (data.map (addDate ym.1 ym.2))

/-- `load_and_combine_data`: fatal when no files are found or no file
processes successfully; otherwise the concatenation of the per-file tables
(which is also persisted as the combined dataset). -/
def load_and_combine_data (files : List InputFile) : Except String (List CombinedRow) :=
  if files.isEmpty then Except.error "No Excel files found"
  else
    let dfs := files.filterMap processFile
    if dfs.isEmpty then Except.error "No valid data files were processed"
    else Except.ok dfs.flatten

/-- The three aggregate tables a completed run writes. -/
structure RunOutput where
  muni : List ((Int × Nat) × Option ℚ)
  nacional : List (Nat × Option ℚ × String)
  provincial : List ((String × Nat) × Option ℚ)
deriving DecidableEq

/-- `main`: combine, clean, derive the metric, and produce the three
aggregate tables.  An `Except.ok` result models a run that reached the end
and wrote its output files; `Except.error` models a fatal abort before the
remaining outputs. -/
def main_run (files : List InputFile) : Except String RunOutput :=
  match load_and_combine_data files with
  | Except.error e => Except.error e
  | Except.ok combined =>
      let metric := determine_afiliados (clean_numeric_columns combined)
      match create_municipality_averages metric with
      | none => Except.error "municipality code extraction failed"
      | some muni =>
          Except.ok ⟨muni, create_national_averages metric,
            create_provincial_averages metric⟩

/-- `Except` success test. -/
def exceptOk {ε α : Type} : Except ε α → Bool
  | Except.ok _ => true
  | Except.error _ => false

/-! ## Group descriptions and concrete rows used in the theorems -/

/-- The AFILIADOS values of the municipality-aggregation group keyed
(code, year): the rows with a present, non-PROVINCIAL municipality whose
label parses to that code and whose year matches. -/
def muniGroup (rows : List MetricRecord) (k : Int) (y : Nat) : List (Option ℚ) :=
  ((muniSelected rows).filter (fun r => decide (rowCode r = some k ∧ r.year = y))).map
    (fun r => r.afiliados)

/-- The AFILIADOS values of the national-aggregation group keyed by year:
the NACIONAL rows of that year. -/
def nacGroup (rows : List MetricRecord) (y : Nat) : List (Option ℚ) :=
  ((nacSelected rows).filter (fun r => decide (r.year = y))).map (fun r => r.afiliados)

/-- The AFILIADOS values of the provincial-aggregation group keyed
(province, year): the PROVINCIAL rows with that present province and
year. -/
def provGroup (rows : List MetricRecord) (p : String) (y : Nat) : List (Option ℚ) :=
  ((provSelected rows).filter (fun r => decide (r.provincia = some p ∧ r.year = y))).map
    (fun r => r.afiliados)

/-- A row with a missing PROVINCIA that survives sanitization. -/
def survivorRow : DataRow :=
  ⟨none, some "01 EJEMPLO", Cell.num 5, Cell.na, Cell.na, Cell.na, Cell.na, Cell.na, Cell.na⟩

/-- A validly named input file whose single row is a footnote row, so
every row is filtered away during sanitization. -/
def footerFile : InputFile :=
  ⟨"AfiliadosMuni-01-2010.xlsx",
   [⟨some "(1) Nota", some "TOTAL", Cell.na, Cell.na, Cell.na, Cell.na,
     Cell.na, Cell.na, Cell.na⟩]⟩

/-- A metric row selected by both the national restriction (PROVINCIA is
NACIONAL) and the provincial restriction (MUNICIPIO is PROVINCIAL). -/
def overlapRow : MetricRecord :=
  ⟨some "NACIONAL", some "PROVINCIAL", 2010, 1, some 5⟩

/-- Three NACIONAL rows of one year carrying the group {10, missing, 20}. -/
def exampleNacRows : List MetricRecord :=
  [⟨some "NACIONAL", none, 2010, 1, some 10⟩,
   ⟨some "NACIONAL", none, 2010, 2, none⟩,
   ⟨some "NACIONAL", none, 2010, 3, some 20⟩]

end SocialSecES

deriving instance DecidableEq for Except

namespace SocialSecES

/-! ## Lemmas on the filename dater -/

theorem eatLiteral_some {ps cs rest : List Char} (h : eatLiteral ps cs = some rest) :
    cs = ps ++ rest := by
  induction ps generalizing cs with
  | nil => simpa [eatLiteral] using h
  | cons p ps ih =>
    cases cs with
    | nil => simp [eatLiteral] at h
    | cons c cs =>
      by_cases hc : c = p
      · subst hc
        rw [eatLiteral, if_pos rfl] at h
        simpa using ih h
      · rw [eatLiteral, if_neg hc] at h
        exact absurd h (by simp)

theorem eatLiteral_append (ps rest : List Char) : eatLiteral ps (ps ++ rest) = some rest := by
  induction ps with
  | nil => rfl
  | cons p ps ih => simp [eatLiteral, ih]

theorem matchTail_some {p : Nat → Bool} {cs : List Char} {y m : Nat}
    (h : matchTail p cs = some (y, m)) :
    ∃ m1 m2 y1 y2 y3 y4 suf, digitsOk m1 m2 y1 y2 y3 y4 ∧ p (monthVal m1 m2) = true ∧
      cs = m1 :: m2 :: '-' :: y1 :: y2 :: y3 :: y4 :: suf ∧
      m = monthVal m1 m2 ∧ y = yearVal y1 y2 y3 y4 := by
  rcases cs with _ | ⟨m1, _ | ⟨m2, _ | ⟨d, _ | ⟨y1, _ | ⟨y2, _ | ⟨y3, _ | ⟨y4, suf⟩⟩⟩⟩⟩⟩⟩ <;>
    simp only [matchTail] at h
  all_goals try exact Option.noConfusion h
  split at h
  case isTrue hcond =>
    simp only [Bool.and_eq_true, decide_eq_true_eq] at hcond
    obtain ⟨⟨⟨⟨⟨⟨⟨h1, h2⟩, hd⟩, h3⟩, h4⟩, h5⟩, h6⟩, hp⟩ := hcond
    subst hd
    injection h with h
    injection h with hy hm
    exact ⟨m1, m2, y1, y2, y3, y4, suf, ⟨h1, h2, h3, h4, h5, h6⟩, hp, rfl, hm.symm, hy.symm⟩
  case isFalse => exact absurd h (by simp)

theorem matchTail_complete {p : Nat → Bool} {m1 m2 y1 y2 y3 y4 : Char}
    (hd : digitsOk m1 m2 y1 y2 y3 y4) (hp : p (monthVal m1 m2) = true) (suf : List Char) :
    matchTail p (m1 :: m2 :: '-' :: y1 :: y2 :: y3 :: y4 :: suf) =
      some (yearVal y1 y2 y3 y4, monthVal m1 m2) := by
  obtain ⟨h1, h2, h3, h4, h5, h6⟩ := hd
  simp [matchTail, h1, h2, h3, h4, h5, h6, hp]

theorem matchAtP_some {p : Nat → Bool} {cs : List Char} {y m : Nat}
    (h : matchAtP p cs = some (y, m)) :
    ∃ m1 m2 y1 y2 y3 y4 suf, digitsOk m1 m2 y1 y2 y3 y4 ∧ p (monthVal m1 m2) = true ∧
      cs = patChars m1 m2 y1 y2 y3 y4 ++ suf ∧
      m = monthVal m1 m2 ∧ y = yearVal y1 y2 y3 y4 := by
  unfold matchAtP at h
  cases he : eatLiteral headerChars cs with
  | none => rw [he] at h; exact absurd h (by simp)
  | some rest =>
    rw [he] at h
    obtain ⟨m1, m2, y1, y2, y3, y4, suf, hd, hp, hrest, hm, hy⟩ := matchTail_some h
    refine ⟨m1, m2, y1, y2, y3, y4, suf, hd, hp, ?_, hm, hy⟩
    rw [eatLiteral_some he, hrest]
    simp [patChars]

theorem matchAtP_complete {p : Nat → Bool} {m1 m2 y1 y2 y3 y4 : Char}
    (hd : digitsOk m1 m2 y1 y2 y3 y4) (hp : p (monthVal m1 m2) = true) (suf : List Char) :
    matchAtP p (patChars m1 m2 y1 y2 y3 y4 ++ suf) =
      some (yearVal y1 y2 y3 y4, monthVal m1 m2) := by
  have heq : patChars m1 m2 y1 y2 y3 y4 ++ suf =
      headerChars ++ (m1 :: m2 :: '-' :: y1 :: y2 :: y3 :: y4 :: suf) := by
    simp [patChars]
  rw [heq]
  unfold matchAtP
  rw [eatLiteral_append]
  exact matchTail_complete hd hp suf

theorem occursPL_cons {p : Nat → Bool} {cs : List Char} {y m : Nat} (c : Char)
    (h : occursPL p cs y m) : occursPL p (c :: cs) y m := by
  obtain ⟨m1, m2, y1, y2, y3, y4, pre, suf, hd, hp, hcs, hm, hy⟩ := h
  exact ⟨m1, m2, y1, y2, y3, y4, c :: pre, suf, hd, hp, by rw [hcs]; rfl, hm, hy⟩

theorem findDateP_some {p : Nat → Bool} {cs : List Char} {y m : Nat}
    (h : findDateP p cs = some (y, m)) : occursPL p cs y m := by
  induction cs with
  | nil => exact Option.noConfusion h
  | cons c cs ih =>
    have hunf : findDateP p (c :: cs) =
        match matchAtP p (c :: cs) with
        | some r => some r
        | none => findDateP p cs := rfl
    rw [hunf] at h
    cases hm : matchAtP p (c :: cs) with
    | some r =>
      simp only [hm] at h
      injection h with h
      subst h
      obtain ⟨m1, m2, y1, y2, y3, y4, suf, hd, hp, hcons, hmv, hyv⟩ := matchAtP_some hm
      exact ⟨m1, m2, y1, y2, y3, y4, [], suf, hd, hp, by rw [hcons]; rfl, hmv, hyv⟩
    | none =>
      simp only [hm] at h
      exact occursPL_cons c (ih h)

theorem findDateP_isSome {p : Nat → Bool} {cs : List Char} {y m : Nat}
    (h : occursPL p cs y m) : (findDateP p cs).isSome = true := by
  obtain ⟨m1, m2, y1, y2, y3, y4, pre, suf, hd, hp, hcs, hm, hy⟩ := h
  subst hcs
  induction pre with
  | nil =>
    rw [List.nil_append]
    have heq : patChars m1 m2 y1 y2 y3 y4 ++ suf =
        'A' :: (['f', 'i', 'l', 'i', 'a', 'd', 'o', 's', 'M', 'u', 'n', 'i', '-'] ++
          [m1, m2, '-', y1, y2, y3, y4] ++ suf) := by
      simp [patChars, headerChars]
    have hcomp := matchAtP_complete hd hp suf
    rw [heq] at hcomp ⊢
    have hunf : findDateP p ('A' ::
        (['f', 'i', 'l', 'i', 'a', 'd', 'o', 's', 'M', 'u', 'n', 'i', '-'] ++
          [m1, m2, '-', y1, y2, y3, y4] ++ suf)) =
        match matchAtP p ('A' ::
          (['f', 'i', 'l', 'i', 'a', 'd', 'o', 's', 'M', 'u', 'n', 'i', '-'] ++
            [m1, m2, '-', y1, y2, y3, y4] ++ suf)) with
        | some r => some r
        | none => findDateP p
            (['f', 'i', 'l', 'i', 'a', 'd', 'o', 's', 'M', 'u', 'n', 'i', '-'] ++
              [m1, m2, '-', y1, y2, y3, y4] ++ suf) := rfl
    rw [hunf, hcomp]
    rfl
  | cons a pre ih =>
    have hstep : (a :: pre) ++ patChars m1 m2 y1 y2 y3 y4 ++ suf =
        a :: (pre ++ patChars m1 m2 y1 y2 y3 y4 ++ suf) := by simp
    rw [hstep]
    have hunf : findDateP p (a :: (pre ++ patChars m1 m2 y1 y2 y3 y4 ++ suf)) =
        match matchAtP p (a :: (pre ++ patChars m1 m2 y1 y2 y3 y4 ++ suf)) with
        | some r => some r
        | none => findDateP p (pre ++ patChars m1 m2 y1 y2 y3 y4 ++ suf) := rfl
    rw [hunf]
    cases hma : matchAtP p (a :: (pre ++ patChars m1 m2 y1 y2 y3 y4 ++ suf)) with
    | some r => rfl
    | none => exact ih

theorem findDateP_exact {p : Nat → Bool} {cs : List Char} {y m : Nat}
    (h : occursPL p cs y m)
    (huniq : ∀ y' m', occursPL p cs y' m' → y' = y ∧ m' = m) :
    findDateP p cs = some (y, m) := by
  have hs := findDateP_isSome h
  cases hf : findDateP p cs with
  | none => rw [hf] at hs; simp at hs
  | some r =>
    obtain ⟨y', m'⟩ := r
    obtain ⟨hy, hm⟩ := huniq y' m' (findDateP_some hf)
    rw [hy, hm]

theorem occursPL_drop {p : Nat → Bool} {cs : List Char} {y m : Nat}
    (h : occursPL p cs y m) :
    ∃ i, i < cs.length ∧ matchAtP p (cs.drop i) = some (y, m) := by
  obtain ⟨m1, m2, y1, y2, y3, y4, pre, suf, hd, hp, hcs, hm, hy⟩ := h
  subst hcs hm hy
  refine ⟨pre.length, ?_, ?_⟩
  · have hlen : (pre ++ patChars m1 m2 y1 y2 y3 y4 ++ suf).length =
        pre.length + 21 + suf.length := by
      simp [patChars, headerChars]
      omega
    omega
  · rw [List.append_assoc, List.drop_left]
    exact matchAtP_complete hd hp suf

theorem occursPL_any_of_month {cs : List Char} {y m : Nat}
    (h : occursPL monthInRange cs y m) : occursPL anyMonth cs y m := by
  obtain ⟨m1, m2, y1, y2, y3, y4, pre, suf, hd, _, hcs, hm, hy⟩ := h
  exact ⟨m1, m2, y1, y2, y3, y4, pre, suf, hd, rfl, hcs, hm, hy⟩

/-! ## C4 and C10: the filename dater -/

/-- C4, counterexample to the claim as stated: in the filename
`AfiliadosMuni-13-2010.xlsx` the pattern with a month in 01..12 is absent,
yet `get_date_from_filename` does not fail: it returns `(2010, 13)`.  The
claim's failure half (pattern absent implies failure) is therefore false
on the code, which checks no month range. -/
theorem c4_counterexample :
    get_date_from_filename "AfiliadosMuni-13-2010.xlsx" = some (2010, 13) ∧
    ¬ hasMonthPattern "AfiliadosMuni-13-2010.xlsx" := by
  constructor
  · decide
  · rintro ⟨y, m, h⟩
    have hs := findDateP_isSome h
    have hn : findDateP monthInRange ("AfiliadosMuni-13-2010.xlsx".data) = none := by decide
    rw [hn] at hs
    simp at hs

/-- C4 (amended): if the filename contains the pattern with a month in
01..12 and every two-digit-month occurrence of the pattern carries that
same (year, month), the dater returns exactly it, whatever surrounds the
pattern; and when the pattern is absent even with an arbitrary two-digit
month (not merely 01..12), the dater fails. -/
theorem c4_filename_dater :
    (∀ s y m, monthPatternOccurs s y m →
        (∀ y' m', patternOccurs s y' m' → y' = y ∧ m' = m) →
        get_date_from_filename s = some (y, m)) ∧
    (∀ s, (∀ y m, ¬ patternOccurs s y m) → get_date_from_filename s = none) := by
  constructor
  · intro s y m h huniq
    exact findDateP_exact (occursPL_any_of_month h) huniq
  · intro s habs
    cases hf : get_date_from_filename s with
    | none => rfl
    | some r =>
      obtain ⟨y, m⟩ := r
      exact absurd (findDateP_some hf) (habs y m)

theorem c4_filename_dater_witness :
    get_date_from_filename "AfiliadosMuni-03-2005.xlsx" = some (2005, 3) ∧
    get_date_from_filename "resumen.xlsx" = none := by
  constructor
  · apply c4_filename_dater.1 "AfiliadosMuni-03-2005.xlsx" 2005 3
    · exact ⟨'0', '3', '2', '0', '0', '5', [], ".xlsx".data,
        ⟨rfl, rfl, rfl, rfl, rfl, rfl⟩, by decide, by decide, by decide, by decide⟩
    · intro y' m' h
      obtain ⟨i, hi, hmi⟩ := occursPL_drop h
      have hlen : ("AfiliadosMuni-03-2005.xlsx".data).length = 26 := by decide
      rw [hlen] at hi
      have hall : ∀ j, j < 26 →
          matchAtP anyMonth (("AfiliadosMuni-03-2005.xlsx".data).drop j) = none ∨
          matchAtP anyMonth (("AfiliadosMuni-03-2005.xlsx".data).drop j) = some (2005, 3) := by
        decide
      rcases hall i hi with hnone | hsome
      · rw [hmi] at hnone
        exact Option.noConfusion hnone
      · rw [hmi] at hsome
        injection hsome with hsome
        exact ⟨congrArg Prod.fst hsome, congrArg Prod.snd hsome⟩
  · apply c4_filename_dater.2 "resumen.xlsx"
    intro y m h
    have hs := findDateP_isSome h
    have hn : findDateP anyMonth ("resumen.xlsx".data) = none := by decide
    rw [hn] at hs
    simp at hs

/-- C10: the dater checks no month range.  Whenever the filename contains
`AfiliadosMuni-` followed by any two digits, a hyphen and four digits, it
returns a (year, month) taken from such an occurrence (exactly that one
when the occurrence is unambiguous), even for a month outside 01..12:
`AfiliadosMuni-13-2010.xlsx` yields month 13 instead of failing. -/
theorem c10_no_month_range_check :
    (∀ s y m, patternOccurs s y m →
        ∃ y' m', get_date_from_filename s = some (y', m') ∧ patternOccurs s y' m') ∧
    (∀ s y m, patternOccurs s y m →
        (∀ y' m', patternOccurs s y' m' → y' = y ∧ m' = m) →
        get_date_from_filename s = some (y, m)) ∧
    get_date_from_filename "AfiliadosMuni-13-2010.xlsx" = some (2010, 13) := by
  refine ⟨?_, ?_, by decide⟩
  · intro s y m h
    have hs := findDateP_isSome h
    cases hf : get_date_from_filename s with
    | none => rw [show findDateP anyMonth s.data = none from hf] at hs; simp at hs
    | some r =>
      obtain ⟨y', m'⟩ := r
      exact ⟨y', m', rfl, findDateP_some hf⟩
  · intro s y m h huniq
    exact findDateP_exact h huniq

theorem c10_no_month_range_check_witness :
    get_date_from_filename "AfiliadosMuni-77-1999_rev.xlsx" = some (1999, 77) := by
  apply c10_no_month_range_check.2.1 "AfiliadosMuni-77-1999_rev.xlsx" 1999 77
  · exact ⟨'7', '7', '1', '9', '9', '9', [], "_rev.xlsx".data,
      ⟨rfl, rfl, rfl, rfl, rfl, rfl⟩, rfl, by decide, by decide, by decide⟩
  · intro y' m' h
    obtain ⟨i, hi, hmi⟩ := occursPL_drop h
    have hlen : ("AfiliadosMuni-77-1999_rev.xlsx".data).length = 30 := by decide
    rw [hlen] at hi
    have hall : ∀ j, j < 30 →
        matchAtP anyMonth (("AfiliadosMuni-77-1999_rev.xlsx".data).drop j) = none ∨
        matchAtP anyMonth (("AfiliadosMuni-77-1999_rev.xlsx".data).drop j) = some (1999, 77) := by
      decide
    rcases hall i hi with hnone | hsome
    · rw [hmi] at hnone
      exact Option.noConfusion hnone
    · rw [hmi] at hsome
      injection hsome with hsome
      exact ⟨congrArg Prod.fst hsome, congrArg Prod.snd hsome⟩

/-! ## C1: the AFILIADOS rule -/

/-- C1: for every row, AFILIADOS equals GENERAL when the year is before
2012 or HOGAR is missing; otherwise, with both present, it is
GENERAL + HOGAR; and whenever GENERAL is missing, AFILIADOS is missing
(never zero). -/
theorem c1_afiliados_rule :
    ∀ r : CleanRow,
      ((r.year < 2012 ∨ r.hogar = none) →
        (determine_afiliados_row r).afiliados = r.general) ∧
      (¬ r.year < 2012 → ∀ g h, r.general = some g → r.hogar = some h →
        (determine_afiliados_row r).afiliados = some (g + h)) ∧
      (r.general = none → (determine_afiliados_row r).afiliados = none) := by
  intro r
  refine ⟨?_, ?_, ?_⟩
  · intro h
    simp only [determine_afiliados_row, if_pos h]
  · intro hy g h hg hh
    have hcond : ¬ (r.year < 2012 ∨ r.hogar = none) := by
      rintro (hlt | hnone)
      · exact hy hlt
      · rw [hh] at hnone; exact Option.noConfusion hnone
    show (if r.year < 2012 ∨ r.hogar = none then r.general
      else nanAdd r.general r.hogar) = some (g + h)
    rw [if_neg hcond, hg, hh]
    rfl
  · intro hg
    simp only [determine_afiliados_row]
    split
    · exact hg
    · rw [hg]
      cases r.hogar <;> rfl

theorem c1_afiliados_rule_witness :
    (determine_afiliados_row ⟨some "NACIONAL", none, 2011, 3, some 100, none, none, some 10, none, none, none⟩).afiliados = some 100 ∧
    (determine_afiliados_row ⟨some "NACIONAL", none, 2012, 3, some 100, none, none, some 10, none, none, none⟩).afiliados = some 110 ∧
    (determine_afiliados_row ⟨some "NACIONAL", none, 2012, 3, none, none, none, some 10, none, none, none⟩).afiliados = none := by
  refine ⟨?_, ?_, ?_⟩
  · have h := (c1_afiliados_rule
      ⟨some "NACIONAL", none, 2011, 3, some 100, none, none, some 10, none, none, none⟩).1
    exact h (Or.inl (by norm_num))
  · have h := (c1_afiliados_rule
      ⟨some "NACIONAL", none, 2012, 3, some 100, none, none, some 10, none, none, none⟩).2.1
    have h2 := h (by norm_num) 100 10 rfl rfl
    rw [h2]
    norm_num
  · have h := (c1_afiliados_rule
      ⟨some "NACIONAL", none, 2012, 3, none, none, none, some 10, none, none, none⟩).2.2
    exact h rfl

/-! ## C8: the numeric sanitizer -/

/-- C8: on the cells of the numeric columns, `clean_numeric_columns` maps
the censored marker `<5` to missing, maps an already-numeric cell to
itself, maps a missing cell to missing, maps text that fails numeric
coercion to missing, and maps numeric text to its value.  The function is
total, so no cell value raises. -/
theorem c8_numeric_sanitizer :
    clean_cell (Cell.txt "<5") = none ∧
    (∀ q : ℚ, clean_cell (Cell.num q) = some q) ∧
    clean_cell Cell.na = none ∧
    (∀ s : String, s ≠ "<5" → to_numeric_str s = none →
      clean_cell (Cell.txt s) = none) ∧
    (∀ (s : String) (q : ℚ), s ≠ "<5" → to_numeric_str s = some q →
      clean_cell (Cell.txt s) = some q) := by
  refine ⟨rfl, fun q => rfl, rfl, ?_, ?_⟩
  · intro s hs hn
    simp only [clean_cell, if_neg hs]
    exact hn
  · intro s q hs hn
    simp only [clean_cell, if_neg hs]
    exact hn

theorem c8_numeric_sanitizer_witness :
    clean_cell (Cell.txt "n.d.") = none ∧ clean_cell (Cell.txt "123.5") = some (247 / 2) := by
  constructor
  · exact c8_numeric_sanitizer.2.2.2.1 "n.d." (by decide) (by decide)
  · apply c8_numeric_sanitizer.2.2.2.2 "123.5" (247 / 2) (by decide)
    simp [to_numeric_str, parseDecimalCore, digitsToNat, digitVal]
    norm_num

/-! ## C9 and C6: the schema normalizer -/

theorem renameLabel_canonical : ∀ n ∈ canonical_columns, renameLabel n = n := by
  decide

theorem renameLabel_target_fixed : ∀ v ∈ column_renames, renameLabel v.2 = v.2 := by
  decide

theorem renameLabel_eq (n : String) :
    renameLabel n =
      match column_renames.find? (fun v => v.1 == n) with
      | some v => v.2
      | none => n := rfl

theorem renameLabel_spec (n : String) :
    renameLabel n = n ∨ ∃ v ∈ column_renames, renameLabel n = v.2 := by
  cases hf : column_renames.find? (fun v => v.1 == n) with
  | none => left; rw [renameLabel_eq n, hf]
  | some v =>
    right
    exact ⟨v, List.mem_of_find?_eq_some hf, by rw [renameLabel_eq n, hf]⟩

/-- C9: renaming an already-canonical column set changes nothing, every
label outside the mapping passes through unchanged, and the normalizer is
idempotent on any column set at all. -/
theorem c9_normalizer_idempotent :
    (∀ cols : List (String × List Cell), (∀ c ∈ cols, c.1 ∈ canonical_columns) →
      rename_columns cols = cols) ∧
    (∀ n : String, (∀ v ∈ column_renames, v.1 ≠ n) → renameLabel n = n) ∧
    (∀ cols : List (String × List Cell),
      rename_columns (rename_columns cols) = rename_columns cols) := by
  refine ⟨?_, ?_, ?_⟩
  · intro cols h
    induction cols with
    | nil => rfl
    | cons c cols ih =>
      have hc := renameLabel_canonical c.1 (h c (by simp))
      have hrest := ih (fun d hd => h d (by simp [hd]))
      show (renameLabel c.1, c.2) :: rename_columns cols = c :: cols
      rw [hc, hrest]
  · intro n h
    have hf : column_renames.find? (fun v => v.1 == n) = none := by
      rw [List.find?_eq_none]
      intro v hv
      simpa using h v hv
    rw [renameLabel_eq n, hf]
  · intro cols
    have hfix : ∀ n : String, renameLabel (renameLabel n) = renameLabel n := by
      intro n
      rcases renameLabel_spec n with hr | ⟨v, hv, hr⟩
      · rw [hr, hr]
      · rw [hr]
        exact renameLabel_target_fixed v hv
    simp [rename_columns, List.map_map, Function.comp, hfix]

theorem c9_normalizer_idempotent_witness :
    rename_columns [("GENERAL", []), ("PROVINCIA", []), ("year", [])] =
      [("GENERAL", []), ("PROVINCIA", []), ("year", [])] ∧
    renameLabel "UNEXPECTED FUTURE COLUMN" = "UNEXPECTED FUTURE COLUMN" := by
  constructor
  · apply c9_normalizer_idempotent.1
    decide
  · apply c9_normalizer_idempotent.2.1
    decide

/-- C6, counterexample: a file carrying both historical variants `R.E.MAR`
and `R. E. MAR ` does not end up with one `MAR` column holding the later
variant's values; `rename` relabels both columns independently, leaving
two columns named `MAR` with both value lists intact. -/
theorem c6_counterexample :
    rename_columns [("R.E.MAR", [Cell.num 1]), ("R. E. MAR ", [Cell.num 2])] =
      [("MAR", [Cell.num 1]), ("MAR", [Cell.num 2])] ∧
    rename_columns [("R.E.MAR", [Cell.num 1]), ("R. E. MAR ", [Cell.num 2])] ≠
      [("MAR", [Cell.num 2])] := by
  constructor
  · decide
  · decide

/-- C6 (amended): when two distinct variants of the same canonical name
occur in one file, both columns are relabelled to the canonical name and
both are kept, in order, with their values; nothing is overwritten or
dropped (the table simply ends up with duplicate canonical labels). -/
theorem c6_collision_keeps_both :
    (∀ v1 v2 : List Cell,
      rename_columns [("R.E.MAR", v1), ("R. E. MAR ", v2)] =
        [("MAR", v1), ("MAR", v2)]) ∧
    (∀ cols : List (String × List Cell),
      (rename_columns cols).map Prod.snd = cols.map Prod.snd) ∧
    (∀ cols : List (String × List Cell),
      (rename_columns cols).length = cols.length) := by
  refine ⟨?_, ?_, ?_⟩
  · intro v1 v2
    have h1 : renameLabel "R.E.MAR" = "MAR" := by decide
    have h2 : renameLabel "R. E. MAR " = "MAR" := by decide
    simp [rename_columns, h1, h2]
  · intro cols
    simp [rename_columns, List.map_map, Function.comp]
  · intro cols
    simp [rename_columns]

/-! ## C7: the row sanitizer -/

/-- C7, counterexample: a row whose PROVINCIA is missing (so in particular
not a present, non-empty string) survives row sanitization untouched: the
filters only inspect text prefixes, and the text form of a missing label
is nan, which starts with neither marker. -/
theorem c7_counterexample :
    sanitize_rows [survivorRow] = [survivorRow] ∧ survivorRow.provincia = none := by
  constructor
  · decide
  · rfl

/-- C7 (amended): every record surviving row sanitization has a PROVINCIA
whose text form does not start with an opening parenthesis, a MUNICIPIO
whose text form does not start with the unclassified-distribution marker,
and at least one present field; presence and non-emptiness of the two
labels themselves are not guaranteed. -/
theorem c7_sanitizer_invariant :
    ∀ (rows : List DataRow) (r : DataRow), r ∈ sanitize_rows rows →
      strStarts (astypeStr r.provincia) "(" = false ∧
      strStarts (astypeStr r.municipio) "SIN DISTRIBUCIÓN" = false ∧
      rowAllNa r = false := by
  intro rows r hr
  unfold sanitize_rows at hr
  rw [List.mem_filter] at hr
  obtain ⟨hr2, hmuni⟩ := hr
  rw [List.mem_filter] at hr2
  obtain ⟨hr1, hprov⟩ := hr2
  rw [List.mem_filter] at hr1
  obtain ⟨_, hna⟩ := hr1
  refine ⟨?_, ?_, ?_⟩
  · cases h : strStarts (astypeStr r.provincia) "(" with
    | false => rfl
    | true => rw [h] at hprov; exact Bool.noConfusion hprov
  · cases h : strStarts (astypeStr r.municipio) "SIN DISTRIBUCIÓN" with
    | false => rfl
    | true => rw [h] at hmuni; exact Bool.noConfusion hmuni
  · cases h : rowAllNa r with
    | false => rfl
    | true => rw [h] at hna; exact Bool.noConfusion hna

theorem c7_sanitizer_invariant_witness :
    strStarts (astypeStr survivorRow.provincia) "(" = false ∧
    strStarts (astypeStr survivorRow.municipio) "SIN DISTRIBUCIÓN" = false ∧
    rowAllNa survivorRow = false :=
  c7_sanitizer_invariant [survivorRow] survivorRow (by decide)

/-! ## C5: fatality of empty runs -/

/-- C5, counterexample: a run over one well-named file whose rows are all
filtered away produces zero combined rows, yet it is not fatal: the
combiner returns the empty table (and persists it), and the run completes,
writing all (empty) output tables. -/
theorem c5_counterexample :
    load_and_combine_data [footerFile] = Except.ok [] ∧
    main_run [footerFile] = Except.ok ⟨[], [], []⟩ := by
  constructor
  · decide
  · decide

/-- C5 (amended): a run is fatal before any output exactly in the first
two scenarios of the claim: when no input file is found, or when no file
processes successfully.  A run whose files all process but whose rows are
all filtered away is not fatal: it completes and produces (empty) output
tables. -/
theorem c5_fatal_conditions :
    (∀ files : List InputFile, files = [] →
      exceptOk (main_run files) = false) ∧
    (∀ files : List InputFile, (∀ f ∈ files, processFile f = none) →
      exceptOk (main_run files) = false) ∧
    main_run [footerFile] = Except.ok ⟨[], [], []⟩ := by
  refine ⟨?_, ?_, by decide⟩
  · intro files h
    subst h
    rfl
  · intro files h
    have hdfs : files.filterMap processFile = [] := List.filterMap_eq_nil_iff.mpr h
    cases files with
    | nil => rfl
    | cons f fs =>
      simp only [main_run, load_and_combine_data, hdfs]
      rfl

theorem c5_fatal_conditions_witness :
    exceptOk (main_run ([] : List InputFile)) = false :=
  c5_fatal_conditions.1 [] rfl

/-! ## Lemmas on grouped means -/

theorem pandasMean_eq_none_iff (vs : List (Option ℚ)) :
    pandasMean vs = none ↔ ∀ v ∈ vs, v = none := by
  unfold pandasMean
  by_cases h : (vs.filterMap id).isEmpty
  · rw [if_pos h]
    rw [List.isEmpty_iff] at h
    simp only [true_iff]
    intro v hv
    cases v with
    | none => rfl
    | some q =>
      have : q ∈ vs.filterMap id := List.mem_filterMap.mpr ⟨some q, hv, rfl⟩
      rw [h] at this
      exact absurd this (List.not_mem_nil q)
  · rw [if_neg h]
    rw [List.isEmpty_iff] at h
    simp only [reduceCtorEq, false_iff]
    intro hall
    apply h
    rw [List.filterMap_eq_nil_iff]
    intro v hv
    rw [hall v hv]
    rfl

theorem pandasMean_some_spec {vs : List (Option ℚ)} {q : ℚ}
    (h : pandasMean vs = some q) :
    vs.filterMap id ≠ [] ∧
      q * ((vs.filterMap id).length : ℚ) = (vs.filterMap id).sum := by
  unfold pandasMean at h
  by_cases he : (vs.filterMap id).isEmpty
  · rw [if_pos he] at h
    exact absurd h (by simp)
  · rw [if_neg he] at h
    injection h with h
    have hne : vs.filterMap id ≠ [] := by
      intro hnil
      rw [List.isEmpty_iff] at he
      exact he hnil
    refine ⟨hne, ?_⟩
    have hlen : ((vs.filterMap id).length : ℚ) ≠ 0 := by
      rw [Nat.cast_ne_zero]
      simpa [List.length_eq_zero] using hne
    rw [← h]
    exact div_mul_cancel₀ _ hlen

theorem groupbyMean_mem_val {α κ : Type} [DecidableEq κ] {keyf : α → κ}
    {valf : α → Option ℚ} {l : List α} {k : κ} {v : Option ℚ}
    (h : (k, v) ∈ groupbyMean keyf valf l) :
    v = pandasMean ((l.filter (fun a => decide (keyf a = k))).map valf) := by
  unfold groupbyMean at h
  rw [List.mem_map] at h
  obtain ⟨k', _, heq⟩ := h
  have h1 : k' = k := congrArg Prod.fst heq
  have h2 := congrArg Prod.snd heq
  subst h1
  exact h2.symm

theorem groupbyMean_mem_key {α κ : Type} [DecidableEq κ] {keyf : α → κ}
    {valf : α → Option ℚ} {l : List α} {k : κ} :
    (∃ v, (k, v) ∈ groupbyMean keyf valf l) ↔ ∃ a ∈ l, keyf a = k := by
  constructor
  · rintro ⟨v, hv⟩
    unfold groupbyMean at hv
    rw [List.mem_map] at hv
    obtain ⟨k', hk', heq⟩ := hv
    have h1 : k' = k := congrArg Prod.fst heq
    subst h1
    rw [List.mem_dedup, List.mem_map] at hk'
    exact hk'
  · rintro ⟨a, ha, hka⟩
    refine ⟨pandasMean ((l.filter (fun b => decide (keyf b = k))).map valf), ?_⟩
    unfold groupbyMean
    rw [List.mem_map]
    exact ⟨k, by rw [List.mem_dedup, List.mem_map]; exact ⟨a, ha, hka⟩, rfl⟩

theorem exists_mem_iff_filter_ne_nil {α : Type} (p : α → Bool) (l : List α) :
    (∃ a ∈ l, p a = true) ↔ l.filter p ≠ [] := by
  constructor
  · rintro ⟨a, ha, hp⟩ hnil
    have hmem : a ∈ l.filter p := List.mem_filter.mpr ⟨ha, hp⟩
    rw [hnil] at hmem
    exact List.not_mem_nil a hmem
  · intro h
    rcases hl : l.filter p with _ | ⟨a, rest⟩
    · exact absurd hl h
    · have hmem : a ∈ l.filter p := by rw [hl]; exact List.mem_cons_self a rest
      rw [List.mem_filter] at hmem
      exact ⟨a, hmem.1, hmem.2⟩

theorem filter_eq_self_of_length {α : Type} {p : α → Bool} {l : List α}
    (h : (l.filter p).length = l.length) : l.filter p = l := by
  induction l with
  | nil => rfl
  | cons a l ih =>
    cases hp : p a with
    | true =>
      rw [List.filter_cons_of_pos hp] at h ⊢
      rw [List.length_cons, List.length_cons] at h
      rw [ih (Nat.succ_injective h)]
    | false =>
      rw [List.filter_cons_of_neg (by simp [hp])] at h
      have hle := List.length_filter_le p l
      rw [List.length_cons] at h
      omega

/-! ## Lemmas on the municipality aggregation -/

theorem parseAllCodes_forall {l : List String} {cs : List Int}
    (h : parseAllCodes l = some cs) :
    List.Forall₂ (fun c s => muniCodeOfLabel s = some c) cs l := by
  induction l generalizing cs with
  | nil =>
    unfold parseAllCodes at h
    injection h with h
    subst h
    exact List.Forall₂.nil
  | cons s rest ih =>
    unfold parseAllCodes at h
    cases hc : muniCodeOfLabel s with
    | none => rw [hc] at h; simp at h
    | some c =>
      cases hr : parseAllCodes rest with
      | none => rw [hc, hr] at h; simp at h
      | some cs' =>
        rw [hc, hr] at h
        simp only [Option.some.injEq] at h
        subst h
        exact List.Forall₂.cons hc (ih hr)

theorem muniSelected_isSome (rows : List MetricRecord) :
    ∀ r ∈ muniSelected rows, r.municipio.isSome = true := by
  intro r hr
  unfold muniSelected at hr
  rw [List.mem_filter] at hr
  exact (List.mem_filter.mp hr.1).2

theorem labels_filterMap (sel : List MetricRecord)
    (h : ∀ r ∈ sel, r.municipio.isSome = true) :
    (sel.map (fun r => r.municipio)).filterMap id =
      sel.map (fun r => r.municipio.getD "") := by
  induction sel with
  | nil => rfl
  | cons r rest ih =>
    obtain ⟨s, hs⟩ := Option.isSome_iff_exists.mp (h r (by simp))
    simp only [List.map_cons, List.filterMap_cons, id, hs, Option.getD_some]
    rw [ih (fun x hx => h x (by simp [hx]))]

theorem muni_success_forall {rows : List MetricRecord} {codes : List Int}
    (hx : extract_municipality_codes
      ((muniSelected rows).map (fun r => r.municipio)) = some codes)
    (hlen : codes.length = (muniSelected rows).length) :
    List.Forall₂ (fun c r => rowCode r = some c) codes (muniSelected rows) := by
  unfold extract_municipality_codes at hx
  rw [labels_filterMap (muniSelected rows) (muniSelected_isSome rows)] at hx
  have hf := parseAllCodes_forall hx
  have hlf := List.Forall₂.length_eq hf
  have hlen2 : (((muniSelected rows).map (fun r => r.municipio.getD "")).filter
      (fun s => !decide (s = "SIN DISTRIBUCIÓN (*)"))).length =
      ((muniSelected rows).map (fun r => r.municipio.getD "")).length := by
    rw [← hlf, hlen, List.length_map]
  rw [filter_eq_self_of_length hlen2] at hf
  rw [List.forall₂_iff_zip] at hf ⊢
  obtain ⟨hfl, hfz⟩ := hf
  refine ⟨by rw [hlen], ?_⟩
  intro c r hab
  have hmem := List.of_mem_zip hab
  obtain ⟨s, hs⟩ := Option.isSome_iff_exists.mp (muniSelected_isSome rows r hmem.2)
  have hz : (c, r.municipio.getD "") ∈
      codes.zip ((muniSelected rows).map (fun x => x.municipio.getD "")) := by
    rw [List.zip_map_right]
    exact List.mem_map.mpr ⟨(c, r), hab, rfl⟩
  have hcode := hfz hz
  unfold rowCode
  rw [hs]
  rw [hs] at hcode
  simpa using hcode

theorem zip_filter_map_eq {codes : List Int} {sel : List MetricRecord}
    (hf : List.Forall₂ (fun c r => rowCode r = some c) codes sel) (k : Int) (y : Nat) :
    ((codes.zip sel).filter (fun cr => decide ((cr.1, cr.2.year) = (k, y)))).map
        (fun cr => cr.2.afiliados) =
      ((sel.filter (fun r => decide (rowCode r = some k ∧ r.year = y))).map
        (fun r => r.afiliados)) := by
  induction hf with
  | nil => rfl
  | @cons c r codes' sel' hcr _ ih =>
    rw [List.zip_cons_cons]
    by_cases hk : (c, r.year) = (k, y)
    · have h1 : c = k := congrArg Prod.fst hk
      have h2 : r.year = y := congrArg Prod.snd hk
      have hk2 : rowCode r = some k ∧ r.year = y := ⟨by rw [← h1]; exact hcr, h2⟩
      rw [List.filter_cons_of_pos (by simp [hk]), List.filter_cons_of_pos (by simp [hk2])]
      rw [List.map_cons, List.map_cons, ih]
    · have hk2 : ¬ (rowCode r = some k ∧ r.year = y) := by
        rintro ⟨h1, h2⟩
        rw [hcr] at h1
        injection h1 with h1
        exact hk (by rw [h1, h2])
      rw [List.filter_cons_of_neg (by simp [hk]), List.filter_cons_of_neg (by simp [hk2])]
      exact ih

theorem muni_averages_spec {rows : List MetricRecord}
    {out : List ((Int × Nat) × Option ℚ)}
    (h : create_municipality_averages rows = some out) :
    (∀ k y v, ((k, y), v) ∈ out → v = pandasMean (muniGroup rows k y)) ∧
    (∀ k y, (∃ v, ((k, y), v) ∈ out) ↔
      ∃ r ∈ muniSelected rows, rowCode r = some k ∧ r.year = y) := by
  unfold create_municipality_averages at h
  split at h
  case h_1 => exact absurd h (by simp)
  case h_2 codes hx =>
    split at h
    case isFalse => exact absurd h (by simp)
    case isTrue hlen =>
      injection h with h
      subst h
      have hf := muni_success_forall hx hlen
      constructor
      · intro k y v hv
        rw [groupbyMean_mem_val hv]
        unfold muniGroup
        rw [← zip_filter_map_eq hf k y]
      · intro k y
        rw [groupbyMean_mem_key]
        have hchain := zip_filter_map_eq hf k y
        constructor
        · rintro ⟨cr, hcr, hkey⟩
          have h1 : ((codes.zip (muniSelected rows)).filter
              (fun cr => decide ((cr.1, cr.2.year) = (k, y)))) ≠ [] := by
            apply (exists_mem_iff_filter_ne_nil _ _).mp
            exact ⟨cr, hcr, by simpa using hkey⟩
          have h2 : ((muniSelected rows).filter
              (fun r => decide (rowCode r = some k ∧ r.year = y))) ≠ [] := by
            intro hnil
            rw [hnil] at hchain
            simp only [List.map_nil, List.map_eq_nil_iff] at hchain
            exact h1 hchain
          obtain ⟨r, hr, hp⟩ := (exists_mem_iff_filter_ne_nil _ _).mpr h2
          exact ⟨r, hr, by simpa using hp⟩
        · rintro ⟨r, hr, hp⟩
          have h2 : ((muniSelected rows).filter
              (fun r => decide (rowCode r = some k ∧ r.year = y))) ≠ [] := by
            apply (exists_mem_iff_filter_ne_nil _ _).mp
            exact ⟨r, hr, by simpa using hp⟩
          have h1 : ((codes.zip (muniSelected rows)).filter
              (fun cr => decide ((cr.1, cr.2.year) = (k, y)))) ≠ [] := by
            intro hnil
            rw [hnil] at hchain
            simp only [List.map_nil] at hchain
            exact h2 (by
              have := hchain.symm
              rwa [List.map_eq_nil_iff] at this)
          obtain ⟨cr, hcr, hp'⟩ := (exists_mem_iff_filter_ne_nil _ _).mpr h1
          exact ⟨cr, hcr, by simpa using hp'⟩

/-! ## Lemmas on the national and provincial aggregations -/

theorem national_averages_spec (rows : List MetricRecord) :
    (∀ y v s, (y, v, s) ∈ create_national_averages rows →
      s = "NACIONAL" ∧ v = pandasMean (nacGroup rows y)) ∧
    (∀ y, (∃ v s, (y, v, s) ∈ create_national_averages rows) ↔
      ∃ r ∈ nacSelected rows, r.year = y) := by
  constructor
  · intro y v s hm
    unfold create_national_averages at hm
    rw [List.mem_map] at hm
    obtain ⟨kv, hkv, heq⟩ := hm
    have h1 : kv.1 = y := congrArg Prod.fst heq
    have h2 : kv.2 = v := congrArg (fun t => t.2.1) heq
    have h3 : ("NACIONAL" : String) = s := congrArg (fun t => t.2.2) heq
    refine ⟨h3.symm, ?_⟩
    have hkv2 : (y, v) ∈ groupbyMean (fun r => r.year) (fun r => r.afiliados)
        (nacSelected rows) := by
      rw [← h1, ← h2, Prod.mk.eta]
      exact hkv
    exact groupbyMean_mem_val hkv2
  · intro y
    constructor
    · rintro ⟨v, s, hm⟩
      unfold create_national_averages at hm
      rw [List.mem_map] at hm
      obtain ⟨kv, hkv, heq⟩ := hm
      have h1 : kv.1 = y := congrArg Prod.fst heq
      have hx := groupbyMean_mem_key.mp ⟨kv.2, by rw [Prod.mk.eta]; exact hkv⟩
      rw [← h1]
      exact hx
    · rintro ⟨r, hr, hy⟩
      obtain ⟨v, hv⟩ := groupbyMean_mem_key.mpr ⟨r, hr, hy⟩
      refine ⟨v, "NACIONAL", ?_⟩
      unfold create_national_averages
      rw [List.mem_map]
      exact ⟨(y, v), hv, rfl⟩

theorem prov_keyed_filter (sel : List MetricRecord) (p : String) (y : Nat) :
    ((sel.filterMap (fun r => r.provincia.map (fun q => (q, r)))).filter
        (fun pr => decide ((pr.1, pr.2.year) = (p, y)))).map (fun pr => pr.2.afiliados) =
      (sel.filter (fun r => decide (r.provincia = some p ∧ r.year = y))).map
        (fun r => r.afiliados) := by
  induction sel with
  | nil => rfl
  | cons r rest ih =>
    cases hp : r.provincia with
    | none =>
      have hc : ¬ (r.provincia = some p ∧ r.year = y) := by
        rintro ⟨h1, _⟩
        rw [hp] at h1
        exact Option.noConfusion h1
      have hstep : (r :: rest).filterMap (fun x => x.provincia.map (fun q => (q, x))) =
          rest.filterMap (fun x => x.provincia.map (fun q => (q, x))) := by
        simp [List.filterMap_cons, hp]
      have hstep2 : (r :: rest).filter
          (fun x => decide (x.provincia = some p ∧ x.year = y)) =
          rest.filter (fun x => decide (x.provincia = some p ∧ x.year = y)) := by
        rw [List.filter_cons]
        simp [hc]
      rw [hstep, hstep2, ih]
    | some q =>
      have hstep : (r :: rest).filterMap (fun x => x.provincia.map (fun w => (w, x))) =
          (q, r) :: rest.filterMap (fun x => x.provincia.map (fun w => (w, x))) := by
        simp [List.filterMap_cons, hp]
      by_cases hk : (q, r.year) = (p, y)
      · have hc : r.provincia = some p ∧ r.year = y := by
          have h1 : q = p := congrArg Prod.fst hk
          have h2 : r.year = y := congrArg Prod.snd hk
          exact ⟨by rw [hp, h1], h2⟩
        have hstepf : ((q, r) :: rest.filterMap
            (fun x => x.provincia.map (fun w => (w, x)))).filter
              (fun pr => decide ((pr.1, pr.2.year) = (p, y))) =
            (q, r) :: (rest.filterMap (fun x => x.provincia.map (fun w => (w, x)))).filter
              (fun pr => decide ((pr.1, pr.2.year) = (p, y))) := by
          rw [List.filter_cons]
          simp [hk]
        have hstep2 : (r :: rest).filter
            (fun x => decide (x.provincia = some p ∧ x.year = y)) =
            r :: rest.filter (fun x => decide (x.provincia = some p ∧ x.year = y)) := by
          rw [List.filter_cons]
          simp [hc]
        rw [hstep, hstepf, hstep2, List.map_cons, List.map_cons, ih]
      · have hc : ¬ (r.provincia = some p ∧ r.year = y) := by
          rintro ⟨h1, h2⟩
          rw [hp] at h1
          injection h1 with h1
          exact hk (by rw [h1, h2])
        have hstepf : ((q, r) :: rest.filterMap
            (fun x => x.provincia.map (fun w => (w, x)))).filter
              (fun pr => decide ((pr.1, pr.2.year) = (p, y))) =
            (rest.filterMap (fun x => x.provincia.map (fun w => (w, x)))).filter
              (fun pr => decide ((pr.1, pr.2.year) = (p, y))) := by
          rw [List.filter_cons]
          simp [hk]
        have hstep2 : (r :: rest).filter
            (fun x => decide (x.provincia = some p ∧ x.year = y)) =
            rest.filter (fun x => decide (x.provincia = some p ∧ x.year = y)) := by
          rw [List.filter_cons]
          simp [hc]
        rw [hstep, hstepf, hstep2, ih]

theorem provincial_averages_spec (rows : List MetricRecord) :
    (∀ p y v, ((p, y), v) ∈ create_provincial_averages rows →
      v = pandasMean (provGroup rows p y)) ∧
    (∀ p y, (∃ v, ((p, y), v) ∈ create_provincial_averages rows) ↔
      ∃ r ∈ provSelected rows, r.provincia = some p ∧ r.year = y) := by
  constructor
  · intro p y v hv
    unfold create_provincial_averages at hv
    rw [groupbyMean_mem_val hv]
    unfold provGroup
    rw [← prov_keyed_filter (provSelected rows) p y]
  · intro p y
    unfold create_provincial_averages
    rw [groupbyMean_mem_key]
    constructor
    · rintro ⟨pr, hpr, hkey⟩
      rw [List.mem_filterMap] at hpr
      obtain ⟨r, hr, hmap⟩ := hpr
      cases hq : r.provincia with
      | none => rw [hq] at hmap; exact absurd hmap (by simp)
      | some q =>
        rw [hq] at hmap
        rw [Option.map_some'] at hmap
        injection hmap with hmap
        subst hmap
        have h1 : q = p := congrArg Prod.fst hkey
        have h2 : r.year = y := congrArg Prod.snd hkey
        exact ⟨r, hr, by rw [hq, h1], h2⟩
    · rintro ⟨r, hr, h1, h2⟩
      refine ⟨(p, r), List.mem_filterMap.mpr ⟨r, hr, by rw [h1]; rfl⟩, by rw [h2]⟩

/-! ## Membership in the three row restrictions -/

theorem mem_muniSelected {rows : List MetricRecord} {r : MetricRecord} :
    r ∈ muniSelected rows ↔
      r ∈ rows ∧ r.municipio ≠ none ∧ r.municipio ≠ some "PROVINCIAL" := by
  unfold muniSelected
  rw [List.mem_filter, List.mem_filter]
  constructor
  · rintro ⟨⟨h1, h2⟩, h3⟩
    refine ⟨h1, Option.ne_none_iff_isSome.mpr h2, by simpa using h3⟩
  · rintro ⟨h1, h2, h3⟩
    exact ⟨⟨h1, Option.ne_none_iff_isSome.mp h2⟩, by simpa using h3⟩

theorem mem_nacSelected {rows : List MetricRecord} {r : MetricRecord} :
    r ∈ nacSelected rows ↔ r ∈ rows ∧ r.provincia = some "NACIONAL" := by
  unfold nacSelected
  rw [List.mem_filter]
  simp

theorem mem_provSelected {rows : List MetricRecord} {r : MetricRecord} :
    r ∈ provSelected rows ↔ r ∈ rows ∧ r.municipio = some "PROVINCIAL" := by
  unfold provSelected
  rw [List.mem_filter]
  simp

/-! ## C2: grouped means ignore missing values -/

/-- C2: for every group reported by any of the three aggregators, the
value is the arithmetic mean of the non-missing AFILIADOS values of the
group (characterized division-free: a reported `some q` satisfies
q * count = sum over the present values), and a group whose every member
is missing reports a missing mean, never zero; e.g. the NACIONAL group
{10, missing, 20} yields 15. -/
theorem c2_grouped_means :
    (∀ rows out, create_municipality_averages rows = some out →
      ∀ k y v, ((k, y), v) ∈ out →
        (v = none ↔ ∀ q ∈ muniGroup rows k y, q = none) ∧
        (∀ q, v = some q →
          q * (((muniGroup rows k y).filterMap id).length : ℚ) =
            ((muniGroup rows k y).filterMap id).sum)) ∧
    (∀ rows y v s, (y, v, s) ∈ create_national_averages rows →
        (v = none ↔ ∀ q ∈ nacGroup rows y, q = none) ∧
        (∀ q, v = some q →
          q * (((nacGroup rows y).filterMap id).length : ℚ) =
            ((nacGroup rows y).filterMap id).sum)) ∧
    (∀ rows p y v, ((p, y), v) ∈ create_provincial_averages rows →
        (v = none ↔ ∀ q ∈ provGroup rows p y, q = none) ∧
        (∀ q, v = some q →
          q * (((provGroup rows p y).filterMap id).length : ℚ) =
            ((provGroup rows p y).filterMap id).sum)) ∧
    create_national_averages exampleNacRows = [(2010, some 15, "NACIONAL")] := by
  have hmean : ∀ (G : List (Option ℚ)) (v : Option ℚ), v = pandasMean G →
      (v = none ↔ ∀ q ∈ G, q = none) ∧
      (∀ q, v = some q → q * ((G.filterMap id).length : ℚ) = (G.filterMap id).sum) := by
    intro G v hv
    subst hv
    refine ⟨pandasMean_eq_none_iff G, ?_⟩
    intro q hq
    exact (pandasMean_some_spec hq).2
  refine ⟨?_, ?_, ?_, ?_⟩
  · intro rows out h k y v hv
    exact hmean _ _ ((muni_averages_spec h).1 k y v hv)
  · intro rows y v s hv
    exact hmean _ _ ((national_averages_spec rows).1 y v s hv).2
  · intro rows p y v hv
    exact hmean _ _ ((provincial_averages_spec rows).1 p y v hv)
  · have hfm : List.filterMap id [some (10 : ℚ), none, some 20] = [10, 20] := by simp
    have hm : pandasMean [some (10 : ℚ), none, some 20] = some 15 := by
      simp only [pandasMean, hfm, List.isEmpty_cons, Bool.false_eq_true, if_false]
      norm_num [List.sum_cons, List.sum_nil]
    simp [create_national_averages, nacSelected, groupbyMean, exampleNacRows, hm]

theorem c2_grouped_means_witness :
    (15 : ℚ) * (((nacGroup exampleNacRows 2010).filterMap id).length : ℚ) =
      ((nacGroup exampleNacRows 2010).filterMap id).sum := by
  have hmem : ((2010 : Nat), some (15 : ℚ), "NACIONAL") ∈
      create_national_averages exampleNacRows := by
    rw [c2_grouped_means.2.2.2]
    exact List.mem_singleton_self _
  exact (c2_grouped_means.2.1 exampleNacRows 2010 (some 15) "NACIONAL" hmem).2 15 rfl

/-! ## C3: the three row restrictions -/

/-- C3, counterexample to mutual exclusivity: the single metric row with
PROVINCIA NACIONAL and MUNICIPIO PROVINCIAL is consumed by both the
national and the provincial aggregation, each producing an output row
from it, so the three row restrictions do not partition the table. -/
theorem c3_counterexample :
    create_national_averages [overlapRow] = [(2010, some 5, "NACIONAL")] ∧
    create_provincial_averages [overlapRow] = [(("NACIONAL", 2010), some 5)] := by
  have hfm : List.filterMap id [some (5 : ℚ)] = [5] := by simp
  have hm : pandasMean [some (5 : ℚ)] = some 5 := by
    simp only [pandasMean, hfm, List.isEmpty_cons, Bool.false_eq_true, if_false]
    norm_num [List.sum_cons, List.sum_nil]
  constructor
  · simp [create_national_averages, nacSelected, groupbyMean, overlapRow, hm]
  · simp [create_provincial_averages, provSelected, groupbyMean, overlapRow, hm]

/-- C3 (amended): the municipality-year aggregation groups by (code, year)
over exactly the rows with a present, non-PROVINCIAL municipality; the
provincial-year aggregation groups by (province, year) over exactly the
PROVINCIAL-municipality rows with a present province; the national-year
aggregation groups by year over exactly the NACIONAL-province rows and
re-attaches the label NACIONAL to every output row.  The municipality and
provincial restrictions exclude each other, but the national restriction
can overlap either, so the three do not partition the table. -/
theorem c3_aggregation_restrictions :
    (∀ rows out, create_municipality_averages rows = some out →
      ∀ k y, (∃ v, ((k, y), v) ∈ out) ↔
        ∃ r ∈ rows, r.municipio ≠ none ∧ r.municipio ≠ some "PROVINCIAL" ∧
          rowCode r = some k ∧ r.year = y) ∧
    (∀ rows p y, (∃ v, ((p, y), v) ∈ create_provincial_averages rows) ↔
        ∃ r ∈ rows, r.municipio = some "PROVINCIAL" ∧ r.provincia = some p ∧
          r.year = y) ∧
    (∀ rows y, (∃ v s, (y, v, s) ∈ create_national_averages rows) ↔
        ∃ r ∈ rows, r.provincia = some "NACIONAL" ∧ r.year = y) ∧
    (∀ rows y v s, (y, v, s) ∈ create_national_averages rows → s = "NACIONAL") ∧
    (∀ r : MetricRecord,
      ¬((r.municipio ≠ none ∧ r.municipio ≠ some "PROVINCIAL") ∧
        r.municipio = some "PROVINCIAL")) := by
  refine ⟨?_, ?_, ?_, ?_, ?_⟩
  · intro rows out h k y
    rw [(muni_averages_spec h).2 k y]
    constructor
    · rintro ⟨r, hr, h1, h2⟩
      obtain ⟨hm, h3, h4⟩ := mem_muniSelected.mp hr
      exact ⟨r, hm, h3, h4, h1, h2⟩
    · rintro ⟨r, hm, h3, h4, h1, h2⟩
      exact ⟨r, mem_muniSelected.mpr ⟨hm, h3, h4⟩, h1, h2⟩
  · intro rows p y
    rw [(provincial_averages_spec rows).2 p y]
    constructor
    · rintro ⟨r, hr, h1, h2⟩
      obtain ⟨hm, h3⟩ := mem_provSelected.mp hr
      exact ⟨r, hm, h3, h1, h2⟩
    · rintro ⟨r, hm, h3, h1, h2⟩
      exact ⟨r, mem_provSelected.mpr ⟨hm, h3⟩, h1, h2⟩
  · intro rows y
    rw [(national_averages_spec rows).2 y]
    constructor
    · rintro ⟨r, hr, h1⟩
      obtain ⟨hm, h3⟩ := mem_nacSelected.mp hr
      exact ⟨r, hm, h3, h1⟩
    · rintro ⟨r, hm, h3, h1⟩
      exact ⟨r, mem_nacSelected.mpr ⟨hm, h3⟩, h1⟩
  · intro rows y v s h
    exact ((national_averages_spec rows).1 y v s h).1
  · rintro r ⟨⟨_, h2⟩, h3⟩
    exact h2 h3

theorem c3_aggregation_restrictions_witness :
    ∃ v, (("NACIONAL", (2010 : Nat)), v) ∈ create_provincial_averages [overlapRow] :=
  (c3_aggregation_restrictions.2.1 [overlapRow] "NACIONAL" 2010).mpr
    ⟨overlapRow, by simp, rfl, rfl, rfl⟩

end SocialSecES
